import Mathlib

/-!
Verification development for `cifti_roi.py`.

The file embeds the pure decision logic of the program as executable Lean
definitions and proves properties of them:

* `get_roi_name` (source lines 185-211): the Overlap Resolver.  The Python
  function receives a cluster array, an atlas label array and a label table.
  Its first loop assigns `atlas_data[idx] = 0` wherever `cluster_data[idx] == 0`,
  mutating the numpy array in place; it then iterates over
  `np.unique(atlas_data)[1:]` and looks each value up in `atlas_dict`,
  where a missing key raises `KeyError`.
* `write_spread` (source lines 248-287): extension coercion of the output
  path and header/append behaviour of the CSV writing step.
* `proc_stat_cluster` (source lines 358-408): accumulation of per-modality
  ROI lists and the write-suppression check.
* the `__main__` dispatch (source lines 519-534).

Numeric cluster values are embedded as `Int` (only zero versus nonzero
matters), atlas label ids as `Nat`, the label table as an association list.
-/

namespace CiftiRoi

/-- Source lines 199-201: the first loop of `get_roi_name` walks the indices
of `cluster_data` and assigns `atlas_data[idx] = 0` wherever
`cluster_data[idx] == 0`.  This function computes the resulting contents of
`atlas_data`.  (If `cluster_data` is longer than `atlas_data` the Python code
would raise `IndexError`; that failure mode is not modelled — all theorems
below assume the §3 invariant that both sequences have equal length.) -/
def maskLabels : List Int → List Nat → List Nat
  | _, [] => []
  | [], a :: as => a :: as
  | c :: cs, a :: as => (if c = 0 then 0 else a) :: maskLabels cs as

/-- `np.unique` on a sequence of natural numbers: the distinct values present,
in ascending order (realised as a filter of `List.range`). -/
def npUnique (l : List Nat) : List Nat :=
  (List.range (l.foldr max 0 + 1)).filter (fun x => decide (x ∈ l))

/-- Source lines 206-209: the second loop of `get_roi_name` looks up each id
in `atlas_dict`, appending the name; a missing key raises `KeyError`, which
aborts the whole call (modelled as `none`). -/
def lookupAll (table : List (Nat × String)) : List Nat → Option (List String)
  | [] => some []
  | j :: js =>
    match table.lookup j with
    | none => none
    | some r =>
      match lookupAll table js with
      | none => none
      | some rs => some (r :: rs)

/-- Source lines 185-211, `get_roi_name`.  The first component is the final
contents of the caller's `atlas_data` array (the first loop mutates it in
place); the second is the returned ROI list, `none` when a `KeyError`
escapes.  The iteration is over `np.unique(atlas_data)[1:]`, i.e. the sorted
distinct values with the smallest one dropped. -/
def get_roi_name (cluster_data : List Int) (atlas_data : List Nat)
    (atlas_dict : List (Nat × String)) : List Nat × Option (List String) :=
  let atlasAfter := maskLabels cluster_data atlas_data
  (atlasAfter, lookupAll atlas_dict ((npUnique atlasAfter).tail))

/-- The distinct nonzero values of the masked label sequence, ascending:
what §4.2 calls the distinct surviving label ids. -/
def survivingIds (cluster_data : List Int) (atlas_data : List Nat) : List Nat :=
  (npUnique (maskLabels cluster_data atlas_data)).filter (fun j => decide (j ≠ 0))

/-- Source lines 381-402 of `proc_stat_cluster`: accumulation of the combined
ROI list.  `leftRois` and `rightRois` are the lists returned by
`proc_hemi(..., "CORTEX_LEFT")` and `proc_hemi(..., "CORTEX_RIGHT")`;
`volRois` is what `load_vol_data` would return.  `tmp_list` starts empty,
is reassigned by each loop iteration, and — crucially — is reassigned by the
volumetric step only when `platform.system().lower() != "windows"`, so on
Windows the stale right-hemisphere value is tested and extended again. -/
def proc_stat_cluster_rois (leftRois rightRois volRois : List String)
    (isWindows : Bool) : List String :=
  let roi0 : List String := []
  let tmp1 := leftRois
  let roi1 := if tmp1.length = 0 then roi0 else roi0 ++ tmp1
  let tmp2 := rightRois
  let roi2 := if tmp2.length = 0 then roi1 else roi1 ++ tmp2
  let tmp3 := if isWindows then tmp2 else volRois
  if tmp3.length = 0 then roi2 else roi2 ++ tmp3

/-- Index of the last occurrence of `ch` in the list, if any (the value of
Python `str.rfind`, with `none` for `-1`). -/
def lastIdx (ch : Char) : List Char → Option Nat
  | [] => none
  | c :: cs =>
    match lastIdx ch cs with
    | some i => some (i + 1)
    | none => if c == ch then some 0 else none

/-- `os.path.splitext` (posix): split at the last dot that lies after the
last path separator, except that a basename consisting only of leading dots
up to that position has no extension. -/
def splitext (p : List Char) : List Char × List Char :=
  let sepI : Int :=
    match lastIdx '/' p with
    | none => -1
    | some i => (i : Int)
  match lastIdx '.' p with
  | none => (p, [])
  | some d =>
    if sepI < (d : Int) then
      let fi := (sepI + 1).toNat
      let base := (p.drop fi).take (d - fi)
      if base.all (fun c => c == '.') then (p, []) else (p.take d, p.drop d)
    else (p, [])

/-- `leadsWith n h` is true when `n` is an initial run of `h`. -/
def leadsWith : List Char → List Char → Bool
  | [], _ => true
  | _ :: _, [] => false
  | a :: as, b :: bs => a == b && leadsWith as bs

/-- Python substring containment, `needle in hay`. -/
def containsSeq (needle : List Char) : List Char → Bool
  | [] => needle.isEmpty
  | c :: t => leadsWith needle (c :: t) || containsSeq needle t

/-- Source lines 260-271 of `write_spread`: the output-path coercion.  Note
the Python code tests `".csv" in out_file` — substring containment anywhere
in the path, not the actual extension — and on a hit replaces the result of
`os.path.splitext` with `.csv`. -/
def write_spread_path (out_file : List Char) : List Char :=
  if containsSeq ".csv".toList out_file then (splitext out_file).1 ++ ".csv".toList
  else if containsSeq ".tsv".toList out_file then (splitext out_file).1 ++ ".csv".toList
  else if containsSeq ".txt".toList out_file then (splitext out_file).1 ++ ".csv".toList
  else out_file

/-- The double-quote character, written numerically. -/
def quoteChar : Char := Char.ofNat 34

/-- The single-quote character, written numerically. -/
def squoteChar : Char := Char.ofNat 39

/-- Python `repr` of a string, as it appears inside the repr of a list.
ROI names are assumed not to contain quotes or escapes, so the repr is just
the name between single quotes. -/
def pyStrRepr (s : String) : List Char := squoteChar :: (s.toList ++ [squoteChar])

/-- Comma-space separated join, as in the Python repr of a list. -/
def sepJoin : List (List Char) → List Char
  | [] => []
  | [x] => x
  | x :: y :: t => x ++ ',' :: ' ' :: sepJoin (y :: t)

/-- Python `repr` of a list of strings, which is what lands in the `ROIs`
cell of the one-row dataframe (line 276 wraps `roi_list` in a list, so the
cell value is the list itself and pandas serializes its repr). -/
def pyRepr (rois : List String) : List Char :=
  ('[' :: sepJoin (rois.map pyStrRepr)) ++ [']']

/-- Pandas minimal CSV quoting: a field is quoted when it contains a comma,
a double quote, or a line break. -/
def needsQuote (s : List Char) : Bool :=
  s.any (fun c => c == ',' || c == quoteChar || c == Char.ofNat 10 || c == Char.ofNat 13)

/-- CSV quote doubling inside a quoted field. -/
def escQuotes : List Char → List Char
  | [] => []
  | c :: t => if c == quoteChar then quoteChar :: quoteChar :: escQuotes t else c :: escQuotes t

/-- One serialized CSV field under pandas minimal quoting. -/
def csvField (s : List Char) : List Char :=
  if needsQuote s then (quoteChar :: escQuotes s) ++ [quoteChar] else s

/-- The header row written by `df.to_csv` for the two-column frame. -/
def headerLine : List Char := "File,ROIs".toList

/-- The single data row written by `df.to_csv` for the one-row frame built at
lines 274-279: the source file path, then the repr of the ROI list.  (The
absolutization of the path by `os.path.abspath` depends on the process state
and is not modelled; `filePath` stands for the recorded path.) -/
def dataLine (filePath : List Char) (rois : List String) : List Char :=
  (csvField filePath ++ [',']) ++ csvField (pyRepr rois)

/-- Source lines 282-285 of `write_spread`: the resulting rows of the output
table.  `existing` is the current content of the (coerced) output path,
`none` when the file does not exist. -/
def write_spread_rows (existing : Option (List (List Char))) (filePath : List Char)
    (rois : List String) : List (List Char) :=
  match existing with
  | some rows => rows ++ [dataLine filePath rois]
  | none => [headerLine, dataLine filePath rois]

/-- Source lines 405-406 of `proc_stat_cluster`: `write_spread` runs only
when the combined ROI list is nonempty; otherwise the output table is left
exactly as it was (`none` = still nonexistent). -/
def proc_stat_cluster_out (leftRois rightRois volRois : List String) (isWindows : Bool)
    (existing : Option (List (List Char))) (cii_file : List Char) :
    Option (List (List Char)) :=
  let rois := proc_stat_cluster_rois leftRois rightRois volRois isWindows
  if rois.length = 0 then existing
  else some (write_spread_rows existing cii_file rois)

/-- The parsed argparse namespace of the `__main__` block (lines 428-508):
optional arguments default to `None`, `--dump-vol-atlases` is a flag. -/
structure CliArgs where
  cii_file : Option String
  out_file : Option String
  left_gii : Option String
  right_gii : Option String
  cii_atlas : Option String
  vol_atlas_num : Option Int
  vol_atlas : Option String
  vol_info : Option String
  dump_vol_atlases : Bool

/-- Python truthiness of an optional string: `None` and the empty string are
falsy. -/
def truthyStr : Option String → Bool
  | none => false
  | some s => decide (s.length ≠ 0)

/-- Python truthiness of an optional int: `None` and `0` are falsy. -/
def truthyInt : Option Int → Bool
  | none => false
  | some n => decide (n ≠ 0)

/-- What the `__main__` dispatch (lines 519-534) decides to do. -/
inductive CliAction where
  | dumpAtlases
  | runStandalone
  | runAtlasNum
  | usageError
  | noAction
deriving DecidableEq

/-- Source lines 519-534: the if/elif/else chain of `__main__`.  When the
five required arguments are truthy but neither volumetric mode is selected,
no branch of the inner chain fires and the script simply falls through. -/
def cliDispatch (a : CliArgs) : CliAction :=
  if a.dump_vol_atlases then CliAction.dumpAtlases
  else if truthyStr a.cii_file && truthyStr a.out_file && truthyStr a.left_gii &&
      truthyStr a.right_gii && truthyStr a.cii_atlas then
    if truthyStr a.vol_atlas && truthyStr a.vol_info then CliAction.runStandalone
    else if truthyInt a.vol_atlas_num then CliAction.runAtlasNum
    else CliAction.noAction
  else CliAction.usageError

/-- Process exit status of each dispatch outcome: only the usage-error branch
calls `sys.exit(1)`; every other path ends the script normally. -/
def cliExitCode : CliAction → Nat
  | CliAction.usageError => 1
  | _ => 0

/-- Whether the dispatch outcome invokes `proc_stat_cluster` (and hence can
touch the output table). -/
def cliRunsProcessing : CliAction → Bool
  | CliAction.runStandalone => true
  | CliAction.runAtlasNum => true
  | _ => false

/-- Whether the dispatch outcome prints the "Not all valid options" error. -/
def cliPrintsError : CliAction → Bool
  | CliAction.usageError => true
  | _ => false

section MaskLemmas

theorem length_maskLabels : ∀ (c : List Int) (a : List Nat),
    c.length = a.length → (maskLabels c a).length = a.length
  | c, [], _ => by cases c <;> rfl
  | [], _ :: _, h => by simp at h
  | c :: cs, a :: as, h => by
    simp only [maskLabels, List.length_cons]
    simp only [List.length_cons, Nat.succ.injEq] at h
    rw [length_maskLabels cs as h]

theorem getD_maskLabels : ∀ (c : List Int) (a : List Nat) (i : Nat),
    c.length = a.length → i < a.length →
    (maskLabels c a).getD i 0 = if c.getD i 0 = 0 then 0 else a.getD i 0
  | _, [], i, _, hi => by simp at hi
  | [], _ :: _, _, h, _ => by simp at h
  | c :: cs, a :: as, 0, _, _ => by simp [maskLabels]
  | c :: cs, a :: as, i + 1, h, hi => by
    simp only [List.length_cons, Nat.succ.injEq] at h
    simp only [List.length_cons, Nat.succ_lt_succ_iff] at hi
    simp only [maskLabels, List.getD_cons_succ]
    exact getD_maskLabels cs as i h hi

theorem mem_iff_getD {l : List Nat} {j : Nat} :
    j ∈ l ↔ ∃ i, i < l.length ∧ l.getD i 0 = j := by
  induction l with
  | nil => simp
  | cons a t ih =>
    constructor
    · intro h
      rcases List.mem_cons.mp h with h | h
      · exact ⟨0, by simp, by simp [h.symm]⟩
      · rcases ih.mp h with ⟨i, hi, he⟩
        exact ⟨i + 1, by simpa using Nat.succ_lt_succ hi, by simpa using he⟩
    · rintro ⟨i, hi, he⟩
      cases i with
      | zero => simp only [List.getD_cons_zero] at he; simp [he]
      | succ i =>
        simp only [List.getD_cons_succ] at he
        simp only [List.length_cons, Nat.succ_lt_succ_iff] at hi
        exact List.mem_cons_of_mem _ (ih.mpr ⟨i, hi, he⟩)

theorem mem_maskLabels {c : List Int} {a : List Nat} {j : Nat}
    (h : c.length = a.length) :
    j ∈ maskLabels c a ↔
      ∃ i, i < a.length ∧ (if c.getD i 0 = 0 then 0 else a.getD i 0) = j := by
  rw [mem_iff_getD]
  constructor
  · rintro ⟨i, hi, he⟩
    rw [length_maskLabels c a h] at hi
    exact ⟨i, hi, by rw [← getD_maskLabels c a i h hi]; exact he⟩
  · rintro ⟨i, hi, he⟩
    refine ⟨i, ?_, ?_⟩
    · rw [length_maskLabels c a h]; exact hi
    · rw [getD_maskLabels c a i h hi]; exact he

end MaskLemmas

section NpUniqueLemmas

theorem le_foldr_max {x : Nat} : ∀ {l : List Nat}, x ∈ l → x ≤ l.foldr max 0 := by
  intro l
  induction l with
  | nil => intro h; simp at h
  | cons a t ih =>
    intro h
    rcases List.mem_cons.mp h with h | h
    · subst h; exact Nat.le_max_left _ _
    · exact le_trans (ih h) (Nat.le_max_right _ _)

theorem mem_npUnique {x : Nat} {l : List Nat} : x ∈ npUnique l ↔ x ∈ l := by
  unfold npUnique
  rw [List.mem_filter]
  constructor
  · rintro ⟨-, h⟩
    exact of_decide_eq_true h
  · intro h
    refine ⟨List.mem_range.mpr ?_, decide_eq_true h⟩
    exact Nat.lt_succ_of_le (le_foldr_max h)

theorem pairwise_npUnique (l : List Nat) : (npUnique l).Pairwise (· < ·) :=
  List.Pairwise.sublist (List.filter_sublist _) (List.pairwise_lt_range _)

theorem tail_npUnique_of_zero_mem {l : List Nat} (h : 0 ∈ l) :
    (npUnique l).tail = (npUnique l).filter (fun j => decide (j ≠ 0)) := by
  unfold npUnique
  rw [List.range_succ_eq_map, List.filter_cons]
  have h0 : (decide (0 ∈ l)) = true := decide_eq_true h
  rw [if_pos h0, List.tail_cons, List.filter_cons, if_neg (by simp)]
  symm
  rw [List.filter_eq_self]
  intro a ha
  rcases List.mem_filter.mp ha with ⟨hmem, -⟩
  rcases List.mem_map.mp hmem with ⟨b, -, rfl⟩
  simp

theorem mem_tail_npUnique {x : Nat} {l : List Nat} (h : 0 ∈ l) :
    x ∈ (npUnique l).tail ↔ x ∈ l ∧ x ≠ 0 := by
  rw [tail_npUnique_of_zero_mem h, List.mem_filter, mem_npUnique]
  simp

end NpUniqueLemmas

section LookupAllLemmas

theorem lookupAll_mem {table : List (Nat × String)} {r : String} :
    ∀ {js : List Nat} {ys : List String}, lookupAll table js = some ys →
      (r ∈ ys ↔ ∃ j, j ∈ js ∧ table.lookup j = some r) := by
  intro js
  induction js with
  | nil =>
    intro ys h
    simp only [lookupAll, Option.some.injEq] at h
    subst h
    simp
  | cons j t ih =>
    intro ys h
    simp only [lookupAll] at h
    cases hj : table.lookup j with
    | none => rw [hj] at h; exact absurd h (by simp)
    | some v =>
      rw [hj] at h
      cases ht : lookupAll table t with
      | none => rw [ht] at h; exact absurd h (by simp)
      | some vs =>
        rw [ht] at h
        simp only [Option.some.injEq] at h
        subst h
        constructor
        · intro hr
          rcases List.mem_cons.mp hr with hr | hr
          · exact ⟨j, List.mem_cons_self _ _, by rw [hj, hr]⟩
          · rcases (ih ht).mp hr with ⟨j', hj', hl⟩
            exact ⟨j', List.mem_cons_of_mem _ hj', hl⟩
        · rintro ⟨j', hj', hl⟩
          rcases List.mem_cons.mp hj' with rfl | hj'
          · rw [hj] at hl
            simp only [Option.some.injEq] at hl
            subst hl
            exact List.mem_cons_self _ _
          · exact List.mem_cons_of_mem _ ((ih ht).mpr ⟨j', hj', hl⟩)

theorem lookupAll_none {table : List (Nat × String)} {j : Nat} :
    ∀ {js : List Nat}, j ∈ js → table.lookup j = none → lookupAll table js = none := by
  intro js
  induction js with
  | nil => intro h; simp at h
  | cons a t ih =>
    intro h hm
    rcases List.mem_cons.mp h with rfl | h
    · simp only [lookupAll, hm]
    · simp only [lookupAll]
      cases ha : table.lookup a with
      | none => rfl
      | some v => rw [ih h hm]

end LookupAllLemmas

/-- If some index carries a zero mask value or a zero label, the masked label
sequence contains `0` (so `np.unique(...)[1:]` really drops the background
value and nothing else). -/
theorem zero_mem_maskLabels {mask : List Int} {labels : List Nat}
    (hlen : mask.length = labels.length)
    (h0 : ∃ i, i < mask.length ∧ (mask.getD i 0 = 0 ∨ labels.getD i 0 = 0)) :
    (0 : Nat) ∈ maskLabels mask labels := by
  rcases h0 with ⟨i, hi, hcase⟩
  have hi' : i < labels.length := hlen ▸ hi
  refine (mem_maskLabels hlen).mpr ⟨i, hi', ?_⟩
  rcases hcase with h | h
  · rw [if_pos h]
  · split
    · rfl
    · exact h

/-- Claim C1 (corrected): with a mask/label pair in which at least one index
has a zero mask value or a zero label (so `0` occurs in the masked working
sequence and `np.unique(...)[1:]` drops exactly the background value), and a
successful resolution, a region name appears in the returned ROI list if and
only if some index has nonzero mask value and nonzero label present in the
table with that name. -/
theorem C1_roi_membership (mask : List Int) (labels : List Nat)
    (table : List (Nat × String)) (names : List String) (r : String)
    (hlen : mask.length = labels.length)
    (h0 : ∃ i, i < mask.length ∧ (mask.getD i 0 = 0 ∨ labels.getD i 0 = 0))
    (hres : (get_roi_name mask labels table).2 = some names) :
    r ∈ names ↔ ∃ i, i < mask.length ∧ mask.getD i 0 ≠ 0 ∧ labels.getD i 0 ≠ 0 ∧
      table.lookup (labels.getD i 0) = some r := by
  have h0m : (0 : Nat) ∈ maskLabels mask labels := zero_mem_maskLabels hlen h0
  have hres' : lookupAll table ((npUnique (maskLabels mask labels)).tail) = some names := hres
  rw [lookupAll_mem hres']
  constructor
  · rintro ⟨j, hj, hl⟩
    rcases (mem_tail_npUnique h0m).mp hj with ⟨hjm, hj0⟩
    rcases (mem_maskLabels hlen).mp hjm with ⟨i, hi, hif⟩
    by_cases hm : mask.getD i 0 = 0
    · rw [if_pos hm] at hif
      exact absurd hif.symm hj0
    · rw [if_neg hm] at hif
      refine ⟨i, hlen ▸ hi, hm, ?_, ?_⟩
      · rw [hif]; exact hj0
      · rw [hif]; exact hl
  · rintro ⟨i, hi, hm, hlz, hl⟩
    refine ⟨labels.getD i 0, ?_, hl⟩
    refine (mem_tail_npUnique h0m).mpr ⟨?_, hlz⟩
    exact (mem_maskLabels hlen).mpr ⟨i, hlen ▸ hi, if_neg hm⟩

/-- Witness for C1: a concrete successful resolution in which the
characterization holds. -/
theorem C1_roi_membership_witness :
    "A" ∈ ["A"] ↔ ∃ i, i < ([1, 0] : List Int).length ∧
      ([1, 0] : List Int).getD i 0 ≠ 0 ∧ ([5, 7] : List Nat).getD i 0 ≠ 0 ∧
      ([(5, "A")] : List (Nat × String)).lookup (([5, 7] : List Nat).getD i 0) = some "A" :=
  C1_roi_membership [1, 0] [5, 7] [(5, "A")] ["A"] "A" (by decide)
    ⟨1, by decide, Or.inl (by decide)⟩ (by decide)

/-- Counterexample to C1 as stated: with mask `[1]`, labels `[5]` and table
`{5 : "A"}`, index 0 has nonzero mask and nonzero table-present label, yet
the resolver returns the empty list — `np.unique` of the masked data is `[5]`
and the `[1:]` slice drops the label 5 itself, since no zero is present. -/
theorem C1_counterexample :
    (get_roi_name [1] [5] [(5, "A")]).2 = some [] ∧
    ¬ (("A" ∈ ([] : List String)) ↔
      ∃ i, i < ([1] : List Int).length ∧ ([1] : List Int).getD i 0 ≠ 0 ∧
        ([5] : List Nat).getD i 0 ≠ 0 ∧
        ([(5, "A")] : List (Nat × String)).lookup (([5] : List Nat).getD i 0) = some "A") := by
  refine ⟨by decide, ?_⟩
  intro h
  have : "A" ∈ ([] : List String) := h.mpr ⟨0, by decide, by decide, by decide, by decide⟩
  simp at this

/-- Claim C2 (corrected): `get_roi_name` mutates the caller's numpy array in
place.  The contents of `atlas_data` after the call are the masked working
sequence: zero wherever the mask is zero, the original label elsewhere. -/
theorem C2_mutation (mask : List Int) (labels : List Nat) (table : List (Nat × String))
    (hlen : mask.length = labels.length) (i : Nat) (hi : i < labels.length) :
    ((get_roi_name mask labels table).1).getD i 0 =
      if mask.getD i 0 = 0 then 0 else labels.getD i 0 :=
  getD_maskLabels mask labels i hlen hi

/-- Witness for C2: the concrete mutated cell. -/
theorem C2_mutation_witness :
    ((get_roi_name [0, 2] [3, 4] []).1).getD 0 0 =
      if ([0, 2] : List Int).getD 0 0 = 0 then 0 else ([3, 4] : List Nat).getD 0 0 :=
  C2_mutation [0, 2] [3, 4] [] (by decide) 0 (by decide)

/-- Counterexample to C2 as stated: with mask `[0]` and labels `[3]`, after
the call the caller's labels array holds `[0]`, not the original `[3]` —
the mask-suppression loop writes through the argument rather than a copy. -/
theorem C2_counterexample :
    (get_roi_name [0] [3] []).1 = [0] ∧ (get_roi_name [0] [3] []).1 ≠ [3] := by
  decide

/-- Claim C4 (corrected): under the same zero-present hypothesis as C1, a
successful resolution lists, in strictly ascending order of label id, the
looked-up name of each distinct surviving nonzero label id exactly once.
(The claim's stronger "no duplicate names" fails when the table maps two
distinct ids to the same name, see the counterexample.) -/
theorem C4_ascending_ids (mask : List Int) (labels : List Nat)
    (table : List (Nat × String)) (names : List String)
    (hlen : mask.length = labels.length)
    (h0 : ∃ i, i < mask.length ∧ (mask.getD i 0 = 0 ∨ labels.getD i 0 = 0))
    (hres : (get_roi_name mask labels table).2 = some names) :
    (survivingIds mask labels).Pairwise (· < ·) ∧
    lookupAll table (survivingIds mask labels) = some names := by
  have h0m : (0 : Nat) ∈ maskLabels mask labels := zero_mem_maskLabels hlen h0
  constructor
  · exact List.Pairwise.sublist (List.filter_sublist _) (pairwise_npUnique _)
  · have ht := tail_npUnique_of_zero_mem h0m
    unfold survivingIds
    rw [← ht]
    exact hres

/-- Witness for C4: the ascending-order example of §8 — surviving ids 5, 2, 9
resolve to the names in id order 2, 5, 9. -/
theorem C4_ascending_ids_witness :
    (survivingIds [1, 1, 1, 0] [5, 2, 9, 0]).Pairwise (· < ·) ∧
    lookupAll [(5, "A"), (2, "B"), (9, "C")] (survivingIds [1, 1, 1, 0] [5, 2, 9, 0]) =
      some ["B", "A", "C"] :=
  C4_ascending_ids [1, 1, 1, 0] [5, 2, 9, 0] [(5, "A"), (2, "B"), (9, "C")] ["B", "A", "C"]
    (by decide) ⟨3, by decide, Or.inl (by decide)⟩ (by decide)

/-- Counterexample to C4 as stated: ids 2 and 5 both survive and the table
maps both to the name `"A"`, so the returned ROI list is `["A", "A"]` — the
code deduplicates label ids, not names. -/
theorem C4_counterexample :
    (get_roi_name [1, 1, 0] [2, 5, 0] [(2, "A"), (5, "A")]).2 = some ["A", "A"] ∧
    ¬ (["A", "A"] : List String).Nodup := by
  decide

/-- Claim C5 (corrected): under the zero-present hypothesis of C1, if some
distinct surviving nonzero label id has no entry in the table, the resolver
raises `KeyError` (modelled as `none`) and returns no ROI list at all. -/
theorem C5_missing_label_fails (mask : List Int) (labels : List Nat)
    (table : List (Nat × String)) (j : Nat)
    (hlen : mask.length = labels.length)
    (h0 : ∃ i, i < mask.length ∧ (mask.getD i 0 = 0 ∨ labels.getD i 0 = 0))
    (hj0 : j ≠ 0)
    (hjs : ∃ i, i < mask.length ∧ mask.getD i 0 ≠ 0 ∧ labels.getD i 0 = j)
    (hmiss : table.lookup j = none) :
    (get_roi_name mask labels table).2 = none := by
  have h0m : (0 : Nat) ∈ maskLabels mask labels := zero_mem_maskLabels hlen h0
  have hjm : j ∈ maskLabels mask labels := by
    rcases hjs with ⟨i, hi, hm, he⟩
    exact (mem_maskLabels hlen).mpr ⟨i, hlen ▸ hi, by rw [if_neg hm]; exact he⟩
  have htail : j ∈ (npUnique (maskLabels mask labels)).tail :=
    (mem_tail_npUnique h0m).mpr ⟨hjm, hj0⟩
  show lookupAll table ((npUnique (maskLabels mask labels)).tail) = none
  exact lookupAll_none htail hmiss

/-- Witness for C5: surviving id 3 is absent from an empty table, so the
resolution fails. -/
theorem C5_missing_label_fails_witness :
    (get_roi_name [1, 0] [3, 0] []).2 = none :=
  C5_missing_label_fails [1, 0] [3, 0] [] 3 (by decide)
    ⟨1, by decide, Or.inl (by decide)⟩ (by decide)
    ⟨0, by decide, by decide, by decide⟩ (by decide)

/-- Counterexample to C5 as stated: surviving id 3 has no table entry, yet
the call does not fail — because no zero is present in the masked data, the
`[1:]` slice silently drops id 3 (the smallest value) and the call returns
the partial list `["B"]`. -/
theorem C5_counterexample :
    (∃ i, i < ([1, 1] : List Int).length ∧ ([1, 1] : List Int).getD i 0 ≠ 0 ∧
      ([3, 7] : List Nat).getD i 0 = 3) ∧
    ([(7, "B")] : List (Nat × String)).lookup 3 = none ∧
    (get_roi_name [1, 1] [3, 7] [(7, "B")]).2 = some ["B"] :=
  ⟨⟨0, by decide, by decide, by decide⟩, by decide, by decide⟩

/-- Claim C3 (code bug): on Windows the volumetric collaborator is skipped,
but `tmp_list` is not reset, so the stale right-hemisphere list is appended a
second time: with left result `["L"]` and right result `["R"]` the function
returns `["L", "R", "R"]`, not the claimed `["L"] ++ ["R"]`. -/
theorem C3_windows_stale_eval :
    proc_stat_cluster_rois ["L"] ["R"] ["V"] true = ["L", "R", "R"] ∧
    proc_stat_cluster_rois ["L"] ["R"] ["V"] true ≠ ["L"] ++ ["R"] := by
  decide

/-- Claim C6 (confirmed): when the combined ROI list over all modalities is
empty, `write_spread` is not invoked and the output table is neither created
nor modified. -/
theorem C6_empty_suppresses_write (leftRois rightRois volRois : List String)
    (isWindows : Bool) (existing : Option (List (List Char))) (cii_file : List Char)
    (h : proc_stat_cluster_rois leftRois rightRois volRois isWindows = []) :
    proc_stat_cluster_out leftRois rightRois volRois isWindows existing cii_file =
      existing := by
  unfold proc_stat_cluster_out
  rw [h]
  rfl

/-- Witness for C6: all three modalities empty, nonexistent output table
stays nonexistent. -/
theorem C6_empty_suppresses_write_witness :
    proc_stat_cluster_out [] [] [] false none "stats.dscalar.nii".toList = none :=
  C6_empty_suppresses_write [] [] [] false none "stats.dscalar.nii".toList (by decide)

/-- Claim C8 (corrected): on a platform where the volumetric step runs
(non-Windows), the returned list is exactly the left result, then the right
result, then the volumetric result, concatenated with no deduplication. -/
theorem C8_concat_order (leftRois rightRois volRois : List String) :
    proc_stat_cluster_rois leftRois rightRois volRois false =
      leftRois ++ rightRois ++ volRois := by
  rcases leftRois with _ | ⟨a, l⟩ <;> rcases rightRois with _ | ⟨b, r⟩ <;>
    rcases volRois with _ | ⟨c, v⟩ <;> simp [proc_stat_cluster_rois]

/-- Counterexample to C8 as stated ("for every invocation"): a Windows
invocation with empty left result re-extends the stale right list, returning
`["R", "R"]` rather than any concatenation ending in the volumetric result. -/
theorem C8_counterexample :
    proc_stat_cluster_rois [] ["R"] ["V"] true = ["R", "R"] ∧
    proc_stat_cluster_rois [] ["R"] ["V"] true ≠ [] ++ ["R"] ++ ["V"] := by
  decide

section WriterLemmas

theorem leadsWith_refl : ∀ (l : List Char), leadsWith l l = true
  | [] => rfl
  | a :: t => by simp [leadsWith, leadsWith_refl t]

theorem containsSeq_suffix_true : ∀ (m n : List Char), containsSeq n (m ++ n) = true
  | [], n => by
    cases n with
    | nil => rfl
    | cons c t => simp [containsSeq, leadsWith_refl]
  | a :: m, n => by
    simp only [List.cons_append, containsSeq, List.append_eq,
      containsSeq_suffix_true m n, Bool.or_true]

theorem splitext_append (p : List Char) : (splitext p).1 ++ (splitext p).2 = p := by
  unfold splitext
  cases h : lastIdx '.' p with
  | none => simp
  | some d =>
    simp only
    split
    · split
      · simp
      · simp [List.take_append_drop]
    · simp

theorem getLast?_csvField_pyRepr (rois : List String) :
    (csvField (pyRepr rois)).getLast? = some quoteChar ∨
    (csvField (pyRepr rois)).getLast? = some ']' := by
  unfold csvField
  split
  · left
    rw [List.getLast?_append_cons]
    rfl
  · right
    unfold pyRepr
    rw [List.getLast?_append_cons]
    rfl

theorem csvField_pyRepr_ne_nil (rois : List String) : csvField (pyRepr rois) ≠ [] := by
  intro h
  rcases getLast?_csvField_pyRepr rois with hl | hl <;> rw [h] at hl <;> simp at hl

end WriterLemmas

/-- Claim C7 (corrected): a path whose actual extension is `.csv`, `.tsv` or
`.txt` is coerced to the canonical `.csv`; a path containing none of those
three substrings anywhere is left unchanged.  (The code tests substring
containment, not the extension, so an unrecognized extension on a path that
contains one of the substrings elsewhere is still rewritten — see the
counterexample.) -/
theorem C7_ext_coercion (p : List Char) :
    ((splitext p).2 = ".csv".toList ∨ (splitext p).2 = ".tsv".toList ∨
        (splitext p).2 = ".txt".toList →
      write_spread_path p = (splitext p).1 ++ ".csv".toList) ∧
    (containsSeq ".csv".toList p = false → containsSeq ".tsv".toList p = false →
      containsSeq ".txt".toList p = false → write_spread_path p = p) := by
  constructor
  · intro hext
    have hp : (splitext p).1 ++ (splitext p).2 = p := splitext_append p
    unfold write_spread_path
    split
    · rfl
    next h1 =>
      split
      · rfl
      next h2 =>
        split
        · rfl
        next h3 =>
          exfalso
          rcases hext with he | he | he <;> rw [he] at hp
          · exact h1 (by rw [← hp]; exact containsSeq_suffix_true _ _)
          · exact h2 (by rw [← hp]; exact containsSeq_suffix_true _ _)
          · exact h3 (by rw [← hp]; exact containsSeq_suffix_true _ _)
  · intro h1 h2 h3
    unfold write_spread_path
    rw [h1, h2, h3]
    simp

/-- Witness for C7: `out.tsv` has recognized extension `.tsv` and is coerced
to `out.csv`. -/
theorem C7_ext_coercion_witness :
    write_spread_path "out.tsv".toList = (splitext "out.tsv".toList).1 ++ ".csv".toList :=
  (C7_ext_coercion "out.tsv".toList).1 (Or.inr (Or.inl (by decide)))

/-- Counterexample to C7 as stated: `data.tsv.gz` has the unrecognized
extension `.gz`, so by the claim it should be left unchanged, yet the code
rewrites it to `data.tsv.csv` because the substring `.tsv` occurs in the
path. -/
theorem C7_counterexample :
    (splitext "data.tsv.gz".toList).2 = ".gz".toList ∧
    ".gz".toList ≠ ".csv".toList ∧ ".gz".toList ≠ ".tsv".toList ∧
    ".gz".toList ≠ ".txt".toList ∧
    write_spread_path "data.tsv.gz".toList ≠ "data.tsv.gz".toList ∧
    write_spread_path "data.tsv.gz".toList = "data.tsv.csv".toList := by
  decide

/-- Claim C9 (confirmed): writing to a nonexistent output table produces the
header `File,ROIs` followed by exactly one data row; writing to an existing
table appends exactly one data row, and that row is never a second header. -/
theorem C9_append_semantics (filePath : List Char) (rois : List String)
    (prev : List (List Char)) :
    write_spread_rows none filePath rois = [headerLine, dataLine filePath rois] ∧
    write_spread_rows (some prev) filePath rois = prev ++ [dataLine filePath rois] ∧
    dataLine filePath rois ≠ headerLine := by
  refine ⟨rfl, rfl, ?_⟩
  intro h
  have h1 : (dataLine filePath rois).getLast? = (csvField (pyRepr rois)).getLast? :=
    List.getLast?_append_of_ne_nil _ (csvField_pyRepr_ne_nil rois)
  rw [h] at h1
  have h2 : headerLine.getLast? = some 's' := by decide
  rw [h2] at h1
  rcases getLast?_csvField_pyRepr rois with hl | hl <;> rw [hl] at h1 <;>
    injection h1 with h1 <;> exact absurd h1 (by decide)

/-- Claim C10 (confirmed): with all five required arguments supplied and
truthy, but no volumetric atlas number and no complete standalone atlas
pair, the `__main__` dispatch falls through every branch: no processing runs,
nothing is written, no error is printed, and the exit status is 0. -/
theorem C10_no_vol_mode_noop (a : CliArgs)
    (h1 : truthyStr a.cii_file = true) (h2 : truthyStr a.out_file = true)
    (h3 : truthyStr a.left_gii = true) (h4 : truthyStr a.right_gii = true)
    (h5 : truthyStr a.cii_atlas = true)
    (h6 : a.dump_vol_atlases = false)
    (h7 : a.vol_atlas_num = none)
    (h8 : a.vol_atlas = none ∨ a.vol_info = none) :
    cliDispatch a = CliAction.noAction ∧
    cliExitCode (cliDispatch a) = 0 ∧
    cliRunsProcessing (cliDispatch a) = false ∧
    cliPrintsError (cliDispatch a) = false := by
  have hnoneS : truthyStr none = false := rfl
  have hnoneI : truthyInt none = false := rfl
  have hd : cliDispatch a = CliAction.noAction := by
    rcases h8 with h8 | h8 <;>
      simp [cliDispatch, h1, h2, h3, h4, h5, h6, h7, h8, hnoneS, hnoneI]
  exact ⟨hd, by rw [hd]; rfl, by rw [hd]; rfl, by rw [hd]; rfl⟩

/-- Witness for C10: a concrete argument namespace with the five required
options and nothing else. -/
theorem C10_no_vol_mode_noop_witness :
    cliDispatch ⟨some "stats.dscalar.nii", some "out.csv", some "left.gii",
        some "right.gii", some "atlas.dlabel.nii", none, none, none, false⟩ =
      CliAction.noAction ∧
    cliExitCode (cliDispatch ⟨some "stats.dscalar.nii", some "out.csv", some "left.gii",
        some "right.gii", some "atlas.dlabel.nii", none, none, none, false⟩) = 0 ∧
    cliRunsProcessing (cliDispatch ⟨some "stats.dscalar.nii", some "out.csv", some "left.gii",
        some "right.gii", some "atlas.dlabel.nii", none, none, none, false⟩) = false ∧
    cliPrintsError (cliDispatch ⟨some "stats.dscalar.nii", some "out.csv", some "left.gii",
        some "right.gii", some "atlas.dlabel.nii", none, none, none, false⟩) = false :=
  C10_no_vol_mode_noop _ (by decide) (by decide) (by decide) (by decide) (by decide)
    rfl rfl (Or.inl rfl)

end CiftiRoi
